import Mathlib

/-!
Shallow embedding of the Participant session core of livekit-server
(package `rtc`, file `participant.go` given as `src/unnamed/part_000`),
together with theorems settling the frozen claims about it.

Conventions of the embedding:
* `livekit.ParticipantInfo_State` becomes the inductive `PState`.
* Effectful collaborator calls (`peerConn.WriteRTCP`, `sigConn.WriteResponse`,
  track `Start`/`AddSubscriber`, observer callbacks) are recorded as explicit
  effect values or write logs; their success/failure, where the code inspects
  it, is injected as a boolean environment.
* Go slices become `List`, Go maps become association lists or functions,
  RTCP packets and source-description chunks are identified by `Nat` tags:
  the code never inspects their payload, only moves them around.
-/

namespace LiveKitRtc

/-! ### Session state machine (`participant.go`, `updateState`) -/

/-- State enum `livekit.ParticipantInfo_State`: Joining, Joined, Active, Disconnected. -/
inductive PState
  | joining
  | joined
  | active
  | disconnected
deriving DecidableEq, Repr

/-- Embeds `Participant.updateState`:

```go
func (p *Participant) updateState(state livekit.ParticipantInfo_State) {
    if state == p.state { return }
    oldState := p.state
    p.state = state
    if p.OnStateChange != nil { go func() { p.OnStateChange(p, oldState) }() }
}
```

Result: the new stored state, and whether an observer notification is
dispatched (when an observer is registered). -/
def updateState (cur new : PState) : PState × Bool :=
  if new = cur then (cur, false) else (new, true)

/-- The stored state after a sequence of `updateState` calls. -/
def applyCalls (cur : PState) (calls : List PState) : PState :=
  calls.foldl (fun s c => (updateState s c).1) cur

/-! ### `Participant.Close` -/

/-- The externally visible effects `Close` performs, in program order. -/
inductive CloseEffect
  | closeRtcpChan
  | setStateDisconnected
  | notifyOnClose
  | cancelCtx
  | closePeerConn
deriving DecidableEq, Repr

/-- The session fields `Close` reads or writes. -/
structure Session where
  ctxCancelled : Bool
  pstate : PState
  rtcpChClosed : Bool
  pcClosed : Bool
  hasOnClose : Bool
deriving DecidableEq, Repr

/-- Embeds `Participant.Close`:

```go
func (p *Participant) Close() error {
    if p.ctx.Err() != nil { return p.ctx.Err() }
    close(p.rtcpCh)
    p.updateState(livekit.ParticipantInfo_DISCONNECTED)
    if p.OnClose != nil { p.OnClose(p) }
    p.cancel()
    return p.peerConn.Close()
}
```

Returns the session afterwards, the effect trace, and whether the call
failed fast with the already-cancelled context error. -/
def Close (p : Session) : Session × List CloseEffect × Bool :=
  if p.ctxCancelled then (p, [], true)
  else
    ({ p with
        rtcpChClosed := true
        pstate := (updateState p.pstate .disconnected).1
        ctxCancelled := true
        pcClosed := true },
      [CloseEffect.closeRtcpChan, CloseEffect.setStateDisconnected] ++
        (if p.hasOnClose then [CloseEffect.notifyOnClose] else []) ++
        [CloseEffect.cancelCtx, CloseEffect.closePeerConn],
      false)

/-! ### `Participant.Answer` -/

/-- Outcomes of the collaborator calls `Answer` makes, injected as an
environment: whether each underlying operation succeeds. -/
structure AnswerEnv where
  setRemoteDescOk : Bool
  createAnswerOk : Bool
  setLocalDescOk : Bool
  writeAnswerOk : Bool
deriving DecidableEq, Repr

/-- The steps `Answer` performs, in program order. -/
inductive AnswerStep
  | setRemoteDesc
  | createAnswer
  | setLocalDesc
  | armNegotiationTrigger
  | sendAnswer
  | setJoined
deriving DecidableEq, Repr

/-- Embeds `Participant.Answer`:

```go
func (p *Participant) Answer(sdp webrtc.SessionDescription) (answer ..., err error) {
    if err = p.peerConn.SetRemoteDescription(sdp); err != nil { return }
    answer, err = p.peerConn.CreateAnswer(nil)
    if err != nil { ...; return }
    if err = p.peerConn.SetLocalDescription(answer); err != nil { ...; return }
    p.peerConn.OnNegotiationNeeded(...)        // armNegotiationTrigger
    err = p.sigConn.WriteResponse(... answer ...)  // sendAnswer
    if p.state == livekit.ParticipantInfo_JOINING {
        p.updateState(livekit.ParticipantInfo_JOINED)
    }
    return
}
```

Returns the session state afterwards, whether a non-nil error is returned,
and the step trace. -/
def Answer (env : AnswerEnv) (st : PState) : PState × Bool × List AnswerStep :=
  if env.setRemoteDescOk = false then (st, true, [AnswerStep.setRemoteDesc])
  else if env.createAnswerOk = false then
    (st, true, [AnswerStep.setRemoteDesc, AnswerStep.createAnswer])
  else if env.setLocalDescOk = false then
    (st, true, [AnswerStep.setRemoteDesc, AnswerStep.createAnswer, AnswerStep.setLocalDesc])
  else
    let st' := if st = PState.joining then (updateState st .joined).1 else st
    (st', !env.writeAnswerOk,
      [AnswerStep.setRemoteDesc, AnswerStep.createAnswer, AnswerStep.setLocalDesc,
        AnswerStep.armNegotiationTrigger, AnswerStep.sendAnswer] ++
        (if st = PState.joining then [AnswerStep.setJoined] else []))

/-! ### `Participant.AddSubscriber` -/

/-- A published track as `AddSubscriber` sees it: its id and whether its own
`AddSubscriber(op)` call succeeds for the target session. -/
structure PubTrack where
  tid : Nat
  acceptsSubscriber : Bool
deriving DecidableEq, Repr

/-- Embeds `Participant.AddSubscriber`:

```go
func (p *Participant) AddSubscriber(op *Participant) error {
    p.lock.RLock(); defer p.lock.RUnlock()
    for _, track := range p.tracks {
        if err := track.AddSubscriber(op); err != nil { return err }
    }
    return nil
}
```

Returns (error as the failing track's id, ids attempted, ids that now hold
the subscriber). -/
def AddSubscriber : List PubTrack → Option Nat × List Nat × List Nat
  | [] => (none, [], [])
  | t :: ts =>
    if t.acceptsSubscriber then
      let r := AddSubscriber ts
      (r.1, t.tid :: r.2.1, t.tid :: r.2.2)
    else (some t.tid, [t.tid], [])

/-! ### Publication path (`onDataChannel`, `onMediaTrack`, `handleTrackPublished`) -/

/-- Constant `placeholderDataChannel`: the reserved private/internal channel label. -/
def placeholderDataChannel : String := "_private"

/-- The externally visible effects of the publication path. -/
inductive PubEffect
  | createDataTrack (tid : Nat)
  | createMediaTrack (tid : Nat)
  | insertTrack (tid : Nat)
  | startTrack (tid : Nat)
  | sendTrackPublished (tid : Nat)
  | notifyPublishObserver (tid : Nat)
deriving DecidableEq, Repr

/-- Embeds `Participant.handleTrackPublished`:

```go
func (p *Participant) handleTrackPublished(track PublishedTrack) {
    p.lock.Lock(); p.tracks[track.ID()] = track; p.lock.Unlock()
    track.Start()
    p.sigConn.WriteResponse(... TrackPublished ...)
    if p.OnTrackPublished != nil { go p.OnTrackPublished(p, track) }
}
``` -/
def handleTrackPublished (hasObserver : Bool) (tid : Nat) : List PubEffect :=
  [PubEffect.insertTrack tid, PubEffect.startTrack tid, PubEffect.sendTrackPublished tid] ++
    (if hasObserver then [PubEffect.notifyPublishObserver tid] else [])

/-- Embeds `Participant.onDataChannel`:

```go
func (p *Participant) onDataChannel(dc *webrtc.DataChannel) {
    if dc.Label() == placeholderDataChannel { return }
    dt := NewDataTrack(p.id, dc)
    p.lock.Lock(); p.tracks[dt.id] = dt; p.lock.Unlock()
    dt.Start()
    p.handleTrackPublished(dt)
}
``` -/
def onDataChannel (hasObserver : Bool) (label : String) (tid : Nat) : List PubEffect :=
  if label = placeholderDataChannel then []
  else
    [PubEffect.createDataTrack tid, PubEffect.insertTrack tid, PubEffect.startTrack tid] ++
      handleTrackPublished hasObserver tid

/-- Embeds `Participant.onMediaTrack`: creates receiver and media track, then only
calls `handleTrackPublished`. -/
def onMediaTrack (hasObserver : Bool) (tid : Nat) : List PubEffect :=
  PubEffect.createMediaTrack tid :: handleTrackPublished hasObserver tid

/-! ### Down tracks and the binding-report burst
(`scheduleDownTrackBindingReports`) -/

/-- Constant `sdBatchSize = 20`. -/
def sdBatchSize : Nat := 20

/-- An `sfu.DownTrack` as the participant consumes it: whether its media
binding has completed (`IsBound`), the tag of the sender report
`CreateSenderReport` produces, and the chunk tags
`CreateSourceDescriptionChunks` produces (`[]` models a nil slice). -/
structure DownTrack where
  isBound : Bool
  srId : Nat
  chunks : List Nat
deriving DecidableEq, Repr

/-- The snapshot phase of `scheduleDownTrackBindingReports`: under the read
lock, collect the source-description chunks of every currently bound down
track of the stream.

```go
var sd []rtcp.SourceDescriptionChunk
for _, dt := range dts {
    if !dt.IsBound() { continue }
    chunks := dt.CreateSourceDescriptionChunks()
    if chunks != nil { sd = append(sd, chunks...) }
}
``` -/
def bindingReportChunks (dts : List DownTrack) : List Nat :=
  dts.foldl (fun sd dt => if dt.isBound then sd ++ dt.chunks else sd) []

/-- The write loop of `scheduleDownTrackBindingReports`; `werr i` tells
whether the `i`-th `WriteRTCP` call fails (the error is only logged).
Returns the log of write calls as (packet chunks, write failed).

```go
batch := pkts
i := 0
for {
    if err := p.peerConn.WriteRTCP(batch); err != nil { log... }
    if i > 5 { return }
    i++
    time.Sleep(20 * time.Millisecond)
}
``` -/
def burstWrites (pkt : List Nat) (werr : Nat → Bool) (i : Nat) : List (List Nat × Bool) :=
  if i > 5 then [(pkt, werr i)]
  else (pkt, werr i) :: burstWrites pkt werr (i + 1)
termination_by 6 - i

/-- Embeds `scheduleDownTrackBindingReports` end to end: snapshot, then the burst. -/
def scheduleDownTrackBindingReports (dts : List DownTrack) (werr : Nat → Bool) :
    List (List Nat × Bool) :=
  burstWrites (bindingReportChunks dts) werr 0

/-! ### Periodic report worker (`downTracksRTCPWorker`), one tick -/

/-- An RTCP packet as this worker assembles it: a sender report or a
source-description packet carrying chunks. -/
inductive RtcpPacket
  | senderReport (srId : Nat)
  | sourceDescription (chunks : List Nat)
deriving DecidableEq, Repr

/-- Result of a `WriteRTCP` call as the worker distinguishes them:
success, a terminal error (`io.EOF` / `io.ErrClosedPipe`, ends the worker),
or any other error (logged, loop continues). -/
inductive WriteRes
  | ok
  | errTerminal
  | errTransient
deriving DecidableEq, Repr

/-- The snapshot phase of a `downTracksRTCPWorker` tick: under the read
lock, one sender report per bound down track plus all their
source-description chunks, over every stream.

```go
var pkts []rtcp.Packet
var sd []rtcp.SourceDescriptionChunk
for _, dts := range p.downTracks {
    for _, dt := range dts {
        if !dt.IsBound() { continue }
        pkts = append(pkts, dt.CreateSenderReport())
        chunks := dt.CreateSourceDescriptionChunks()
        if chunks != nil { sd = append(sd, chunks...) }
    }
}
``` -/
def collectReports (streams : List (String × List DownTrack)) :
    List RtcpPacket × List Nat :=
  streams.foldl
    (fun acc st =>
      st.2.foldl
        (fun acc dt =>
          if dt.isBound then
            (acc.1 ++ [RtcpPacket.senderReport dt.srId], acc.2 ++ dt.chunks)
          else acc)
        acc)
    ([], [])

/-- The bound down tracks of the registry, in snapshot order. -/
def boundTracks (streams : List (String × List DownTrack)) : List DownTrack :=
  (streams.map Prod.snd).flatten.filter (fun dt => dt.isBound)

/-- The sender reports a tick produces, one per bound down track, in
snapshot order. -/
def tickSenderReports (streams : List (String × List DownTrack)) : List RtcpPacket :=
  (boundTracks streams).map (fun dt => RtcpPacket.senderReport dt.srId)

/-- The source-description chunks a tick produces, in snapshot order. -/
def tickChunks (streams : List (String × List DownTrack)) : List Nat :=
  ((boundTracks streams).map DownTrack.chunks).flatten

/-- Modelled from the spec: `sfu.DownTrack.CreateSourceDescriptionChunks`
lives in `pkg/sfu`, which is not part of the given sources, so the chunk
arity of a down track is not fixed by code here; the spec's per-tick write
count "exactly ceil(M / 20) compound writes" for `M` bound down tracks
presumes that every bound down track contributes exactly one
source-description chunk, which this predicate states. -/
def singleChunkPerTrack (streams : List (String × List DownTrack)) : Prop :=
  ∀ dt ∈ boundTracks streams, dt.chunks.length = 1

/-- The batching loop of a `downTracksRTCPWorker` tick; `werr k` is the
outcome of the `k`-th `WriteRTCP` call of the tick. Returns the compound
packets actually passed to `WriteRTCP`, in order.

```go
var batch []rtcp.SourceDescriptionChunk
for len(sd) > 0 {
    size := len(sd)
    if size > sdBatchSize { size = sdBatchSize }
    batch = sd[:size]
    sd = sd[size:]
    pkts = append(pkts, &rtcp.SourceDescription{Chunks: batch})
    if err := p.peerConn.WriteRTCP(pkts); err != nil {
        if err == io.EOF || err == io.ErrClosedPipe { return }
        log...
    }
    pkts = pkts[:0]
}
``` -/
def sendBatches (werr : Nat → WriteRes) (k : Nat) (pkts : List RtcpPacket)
    (sd : List Nat) : List (List RtcpPacket) :=
  match sd with
  | [] => []
  | c :: cs =>
    let size := min (c :: cs).length sdBatchSize
    let compound := pkts ++ [RtcpPacket.sourceDescription ((c :: cs).take size)]
    match werr k with
    | WriteRes.errTerminal => [compound]
    | _ => compound :: sendBatches werr (k + 1) [] ((c :: cs).drop size)
termination_by sd.length
decreasing_by
  simp only [List.length_drop, List.length_cons, sdBatchSize]
  omega

/-- One tick of `downTracksRTCPWorker`: snapshot, then batching. -/
def workerTick (werr : Nat → WriteRes) (streams : List (String × List DownTrack)) :
    List (List RtcpPacket) :=
  let r := collectReports streams
  sendBatches werr 0 r.1 r.2

/-! ### Interleaving model of the session's workers around `Close`

The RTCP writers of a session — `rtcpSendWorker` draining `rtcpCh`, an
in-flight binding burst, and the periodic `downTracksRTCPWorker` —
interleave with `Close` and with producers feeding `rtcpCh`. A small step
semantics records every `WriteRTCP` call together with the session state
at the moment of the call. -/

/-- Observable system state: session state, the `rtcpCh` buffer and closed
flag, remaining writes of an in-flight binding burst, whether the peer
connection was closed, whether the down-track registry holds bound down
tracks (`Close` clears no down tracks, so closing leaves this as it was),
whether `downTracksRTCPWorker` has returned (its only exit is observing a
terminal write error), and the log of `WriteRTCP` calls (batch tag,
session state when the write was issued). -/
structure SysState where
  pstate : PState
  chanBuf : List Nat
  chanClosed : Bool
  burstRemaining : Nat
  burstPkt : Nat
  pcClosed : Bool
  downTracksBound : Bool
  periodicExited : Bool
  writes : List (Nat × PState)
deriving DecidableEq, Repr

/-- Interleaving events: a producer enqueues a batch on `rtcpCh`; `Close`
runs; `rtcpSendWorker` receives and writes one batch; a binding burst
starts for packet tag `pkt`; the burst performs one of its writes; the
periodic worker performs one 5-second tick whose write (when bound down
tracks exist) the transport answers with `res`. -/
inductive Ev
  | enqueue (b : Nat)
  | close
  | relayStep
  | burstStart (pkt : Nat)
  | burstStep
  | periodicTick (pkt : Nat) (res : WriteRes)
deriving DecidableEq, Repr

/-- One interleaving step; `none` when the event cannot fire:
* `enqueue` requires the channel open (a send on a closed Go channel is a
  runtime fault, so no trace contains it);
* `close` mirrors `Close` (guarded by the cancelled context, here by
  `pcClosed`): closes `rtcpCh`, sets the state to Disconnected via
  `updateState`, closes the peer connection — and touches neither the
  down-track registry nor the periodic worker;
* `relayStep` mirrors one iteration of `for pkts := range p.rtcpCh`:
  a Go receive on a closed channel still yields the buffered batches, so it
  only requires the buffer nonempty, and `WriteRTCP` is called on it;
* `burstStart` arms the in-flight burst with its fixed number of writes
  (the length of the `burstWrites` log);
* `burstStep` is one `WriteRTCP` of the burst loop, which checks no
  cancellation and no state;
* `periodicTick` is one tick of `downTracksRTCPWorker`, which also checks
  no cancellation and no state: with no bound down track the tick writes
  nothing; otherwise its compound writes, collapsed here to one logged
  `WriteRTCP` call of packet tag `pkt` (their per-tick structure is
  `workerTick`), are answered by the transport with `res`, and the worker
  returns exactly when `res` is the terminal `io.EOF`/`io.ErrClosedPipe`
  answer, never because of `Close`. -/
def step (s : SysState) (e : Ev) : Option SysState :=
  match e with
  | Ev.enqueue b =>
    if s.chanClosed then none else some { s with chanBuf := s.chanBuf ++ [b] }
  | Ev.close =>
    if s.pcClosed then none
    else some { s with
      chanClosed := true
      pstate := (updateState s.pstate .disconnected).1
      pcClosed := true }
  | Ev.relayStep =>
    match s.chanBuf with
    | [] => none
    | b :: rest => some { s with chanBuf := rest, writes := s.writes ++ [(b, s.pstate)] }
  | Ev.burstStart pkt =>
    some { s with
      burstRemaining := (burstWrites [pkt] (fun _ => false) 0).length
      burstPkt := pkt }
  | Ev.burstStep =>
    if s.burstRemaining = 0 then none
    else some { s with
      burstRemaining := s.burstRemaining - 1
      writes := s.writes ++ [(s.burstPkt, s.pstate)] }
  | Ev.periodicTick pkt res =>
    if s.periodicExited then none
    else if s.downTracksBound then
      some { s with
        writes := s.writes ++ [(pkt, s.pstate)]
        periodicExited := res == WriteRes.errTerminal }
    else some s

/-- Run a sequence of events from a state. -/
def run (s : SysState) : List Ev → Option SysState
  | [] => some s
  | e :: es =>
    match step s e with
    | none => none
    | some s' => run s' es

/-- The initial system state of a freshly constructed participant. -/
def initSys : SysState :=
  { pstate := PState.joining, chanBuf := [], chanClosed := false,
    burstRemaining := 0, burstPkt := 0, pcClosed := false,
    downTracksBound := false, periodicExited := false, writes := [] }

/-! ### `Participant.removeDownTrack` -/

/-- The two registries of the participant that `removeDownTrack` can touch:
the published-track map and the down-track map (stream id to ordered
sequence of down-track handles, a handle being a pointer identity). -/
structure ParticipantMaps where
  tracks : List (Nat × Nat)
  downTracks : String → List Nat

/-- Embeds `Participant.removeDownTrack`:

```go
func (p *Participant) removeDownTrack(streamId string, dt *sfu.DownTrack) {
    p.lock.Lock(); defer p.lock.Unlock()
    tracks := p.downTracks[streamId]
    newTracks := make([]*sfu.DownTrack, 0, len(tracks))
    for _, track := range tracks {
        if track != dt { newTracks = append(newTracks, track) }
    }
    p.downTracks[streamId] = newTracks
}
``` -/
def removeDownTrack (p : ParticipantMaps) (streamId : String) (dt : Nat) : ParticipantMaps :=
  { p with
      downTracks := fun s =>
        if s = streamId then (p.downTracks streamId).filter (fun track => track != dt)
        else p.downTracks s }

/-! ### Sample inputs used by witnesses -/

/-- A concrete down-track registry: stream "a" with two bound and one
unbound down track, stream "b" with one bound down track. -/
def streamsW : List (String × List DownTrack) :=
  [("a", [⟨true, 1, [11]⟩, ⟨false, 2, [12]⟩, ⟨true, 3, [13]⟩]),
   ("b", [⟨true, 4, [14]⟩])]

/-- A concrete participant registry pair: one published track, stream "a"
holding handles `[4, 5, 4, 6]`, every other stream holding `[9]`. -/
def sampleMaps : ParticipantMaps :=
  ⟨[(1, 2)], fun s => if s = "a" then [4, 5, 4, 6] else [9]⟩

/-! ## Theorems settling the claims -/

/-! ### C1: monotonicity of the state machine -/

/-- Claim C1, counterexample. The claim says that over every sequence of
`updateState` calls the state never regresses and that once Disconnected no
call changes the state. `updateState` enforces no such thing: it stores any
state different from the current one, so a call with `Active` right after
Disconnected regresses the state. (The program can realize this sequence:
`Close` sets Disconnected, and a late ICE-connected callback then calls
`updateState(ACTIVE)`.) -/
theorem updateState_disconnected_not_absorbing_cex :
    ¬ (∀ calls : List PState,
        applyCalls PState.disconnected calls = PState.disconnected) := by
  intro h
  have h1 := h [PState.active]
  simp [applyCalls, updateState] at h1

/-- Claim C1, amended: calling `updateState` with the current state leaves
the state unchanged and produces no observer notification, while a call
with any different state unconditionally stores that state (and notifies);
the setter itself enforces no monotonicity, so in particular Disconnected
is not absorbing. -/
theorem updateState_same_state_noop_and_unconditional_set (cur new : PState) :
    updateState cur cur = (cur, false) ∧
      (new ≠ cur → updateState cur new = (new, true)) := by
  refine ⟨by simp [updateState], fun h => ?_⟩
  simp [updateState, h]

/-- Witness for the amended C1 theorem at concrete states. -/
theorem updateState_same_state_noop_witness :
    updateState PState.disconnected PState.disconnected = (PState.disconnected, false) ∧
      updateState PState.disconnected PState.active = (PState.active, true) := by
  have h := updateState_same_state_noop_and_unconditional_set PState.disconnected PState.active
  exact ⟨h.1, h.2 (by decide)⟩

/-! ### C5: `Close` -/

/-- Claim C5: `Close` is idempotent-guarded. If the session context is
already cancelled, `Close` fails fast with the already-cancelled error and
performs no effect; otherwise it closes the outbound RTCP queue,
transitions the state to Disconnected, invokes the close observer, cancels
the session context, and closes the transport, in that order. -/
theorem close_idempotent_guard_and_effects (p : Session) :
    (p.ctxCancelled = true → Close p = (p, [], true)) ∧
    (p.ctxCancelled = false → p.hasOnClose = true →
      Close p =
        ({ ctxCancelled := true, pstate := PState.disconnected,
           rtcpChClosed := true, pcClosed := true, hasOnClose := true },
         [CloseEffect.closeRtcpChan, CloseEffect.setStateDisconnected,
          CloseEffect.notifyOnClose, CloseEffect.cancelCtx,
          CloseEffect.closePeerConn],
         false)) := by
  obtain ⟨c, st, rc, pc, ho⟩ := p
  cases c <;> cases st <;> cases rc <;> cases pc <;> cases ho <;> decide

/-- Witness for C5 at concrete sessions: one already cancelled, one live. -/
theorem close_idempotent_guard_witness :
    Close ⟨true, PState.active, false, false, true⟩ =
      (⟨true, PState.active, false, false, true⟩, [], true) ∧
    Close ⟨false, PState.active, false, false, true⟩ =
      (⟨true, PState.disconnected, true, true, true⟩,
       [CloseEffect.closeRtcpChan, CloseEffect.setStateDisconnected,
        CloseEffect.notifyOnClose, CloseEffect.cancelCtx,
        CloseEffect.closePeerConn],
       false) := by
  have h1 := close_idempotent_guard_and_effects ⟨true, PState.active, false, false, true⟩
  have h2 := close_idempotent_guard_and_effects ⟨false, PState.active, false, false, true⟩
  exact ⟨h1.1 rfl, h2.2 rfl rfl⟩

/-! ### C6: `Answer` -/

/-- Claim C6: if `Answer` fails at `SetRemoteDescription`, `CreateAnswer`
or `SetLocalDescription`, the error is returned and the session state is
left unchanged; after a successful `Answer` (nil error returned) on a
session in state Joining, the state becomes Joined. -/
theorem answer_error_leaves_state_and_success_joins (env : AnswerEnv) (st : PState) :
    ((env.setRemoteDescOk = false ∨ env.createAnswerOk = false ∨
        env.setLocalDescOk = false) →
      (Answer env st).2.1 = true ∧ (Answer env st).1 = st) ∧
    ((Answer env st).2.1 = false → st = PState.joining →
      (Answer env st).1 = PState.joined) := by
  obtain ⟨a, b, c, d⟩ := env
  cases a <;> cases b <;> cases c <;> cases d <;> cases st <;> decide

/-- Witness for C6: a failing `CreateAnswer` leaves a Joined session
Joined with an error returned; a fully successful `Answer` moves a Joining
session to Joined. -/
theorem answer_error_leaves_state_witness :
    (Answer ⟨true, false, true, true⟩ PState.joined).2.1 = true ∧
    (Answer ⟨true, false, true, true⟩ PState.joined).1 = PState.joined ∧
    (Answer ⟨true, true, true, true⟩ PState.joining).1 = PState.joined := by
  have h1 := answer_error_leaves_state_and_success_joins ⟨true, false, true, true⟩ PState.joined
  have h2 := answer_error_leaves_state_and_success_joins ⟨true, true, true, true⟩ PState.joining
  exact ⟨(h1.1 (Or.inr (Or.inl rfl))).1, (h1.1 (Or.inr (Or.inl rfl))).2, h2.2 rfl rfl⟩

/-! ### C8: data channels and the private label -/

/-- Claim C8: an inbound data channel whose label is the reserved
`placeholderDataChannel` label is ignored entirely (no effect at all: no
track created, no registry insert, no confirmation, no observer
notification); for any other label a data track is created, inserted,
started, a track-published confirmation is sent, and the publish observer
(when registered) is notified. -/
theorem onDataChannel_private_ignored_else_published
    (hasObs : Bool) (label : String) (tid : Nat) :
    (label = placeholderDataChannel → onDataChannel hasObs label tid = []) ∧
    (label ≠ placeholderDataChannel →
      PubEffect.createDataTrack tid ∈ onDataChannel hasObs label tid ∧
      PubEffect.insertTrack tid ∈ onDataChannel hasObs label tid ∧
      PubEffect.startTrack tid ∈ onDataChannel hasObs label tid ∧
      PubEffect.sendTrackPublished tid ∈ onDataChannel hasObs label tid ∧
      (hasObs = true →
        PubEffect.notifyPublishObserver tid ∈ onDataChannel hasObs label tid)) := by
  constructor
  · intro h
    simp [onDataChannel, h]
  · intro h
    cases hobs : hasObs <;>
      simp [onDataChannel, h, handleTrackPublished, hobs]

/-- Witness for C8 at the labels "_private" and "chat". -/
theorem onDataChannel_private_ignored_witness :
    onDataChannel true "_private" 5 = [] ∧
    PubEffect.startTrack 5 ∈ onDataChannel true "chat" 5 ∧
    PubEffect.notifyPublishObserver 5 ∈ onDataChannel true "chat" 5 := by
  have h1 := onDataChannel_private_ignored_else_published true "_private" 5
  have h2 := onDataChannel_private_ignored_else_published true "chat" 5
  have hne : "chat" ≠ placeholderDataChannel := by decide
  exact ⟨h1.1 rfl, (h2.2 hne).2.2.1, (h2.2 hne).2.2.2.2 rfl⟩

/-! ### C9: the start hook is invoked twice on the data-channel path -/

/-- Claim C9 evaluated at a failing input. The claim says every published
track's `Start` hook is invoked exactly once after registration, but
`onDataChannel` calls `dt.Start()` itself and then `handleTrackPublished`
calls `track.Start()` again: an inbound data channel with a non-reserved
label gets two `Start` invocations (and two inserts of the same key),
while the media-track path performs exactly one. -/
theorem onDataChannel_start_invoked_twice :
    (onDataChannel true "chat" 5).count (PubEffect.startTrack 5) = 2 ∧
    (onDataChannel true "chat" 5).count (PubEffect.insertTrack 5) = 2 ∧
    (onMediaTrack true 7).count (PubEffect.startTrack 7) = 1 := by
  decide

/-! ### C3: the binding-report burst -/

/-- Helper: from loop counter `i` with `6 - i = k`, the burst write loop
performs `k + 1` writes, each of the packet built at burst start. -/
theorem burstWrites_spec (pkt : List Nat) (werr : Nat → Bool) :
    ∀ k i, 6 - i = k → (burstWrites pkt werr i).length = k + 1 ∧
      ∀ w ∈ burstWrites pkt werr i, w.1 = pkt := by
  intro k
  induction k with
  | zero =>
    intro i hi
    have h6 : i > 5 := by omega
    rw [burstWrites]
    simp [h6]
  | succ n ih =>
    intro i hi
    have h6 : ¬ i > 5 := by omega
    obtain ⟨hL, hM⟩ := ih (i + 1) (by omega)
    rw [burstWrites]
    simp only [h6, if_false]
    refine ⟨by simp [hL], ?_⟩
    intro w hw
    simp only [List.mem_cons] at hw
    rcases hw with rfl | hw
    · rfl
    · exact hM w hw

/-- Claim C3, counterexample: the burst never performs 6 writes. The loop

```go
for {
    WriteRTCP(batch)
    if i > 5 { return }
    i++
    ...
}
```

writes once for each `i` in 0..6, hence 7 times, not 6. -/
theorem binding_burst_six_writes_cex :
    ¬ (∀ dts : List DownTrack, ∀ werr : Nat → Bool,
        (scheduleDownTrackBindingReports dts werr).length = 6) := by
  intro h
  have h1 := h [] (fun _ => false)
  have h2 := (burstWrites_spec (bindingReportChunks []) (fun _ => false) 6 0 rfl).1
  simp only [scheduleDownTrackBindingReports] at h1
  omega

/-- Claim C3, amended: the burst builds one Source Description packet from
all down tracks of the stream that are bound at burst-start time, and
performs exactly 7 transport writes (one per loop counter value 0..6) of
that same packet, regardless of transport write failures, which are only
logged. -/
theorem binding_burst_seven_writes (dts : List DownTrack) (werr : Nat → Bool) :
    (scheduleDownTrackBindingReports dts werr).length = 7 ∧
      ∀ w ∈ scheduleDownTrackBindingReports dts werr, w.1 = bindingReportChunks dts := by
  have h := burstWrites_spec (bindingReportChunks dts) werr 6 0 rfl
  exact ⟨h.1, h.2⟩

/-- Witness for the amended C3 theorem: one bound down track with chunk
`7`, every write failing; still 7 writes of the packet `[7]`. -/
theorem binding_burst_seven_writes_witness :
    (scheduleDownTrackBindingReports [⟨true, 0, [7]⟩] (fun _ => true)).length = 7 ∧
      ([7] : List Nat) = bindingReportChunks [⟨true, 0, [7]⟩] := by
  have h := binding_burst_seven_writes [⟨true, 0, [7]⟩] (fun _ => true)
  have hm : (([7], true) : List Nat × Bool) ∈
      scheduleDownTrackBindingReports [⟨true, 0, [7]⟩] (fun _ => true) := by
    simp [scheduleDownTrackBindingReports, bindingReportChunks, burstWrites]
  exact ⟨h.1, h.2 ([7], true) hm⟩

/-! ### C7: `AddSubscriber` fan-out -/

/-- Helper: when every track accepts the subscriber, `AddSubscriber`
returns nil and attempts and subscribes every track in order. -/
theorem addSubscriber_all_ok : ∀ ts : List PubTrack,
    (∀ t ∈ ts, t.acceptsSubscriber = true) →
    AddSubscriber ts = (none, ts.map PubTrack.tid, ts.map PubTrack.tid) := by
  intro ts
  induction ts with
  | nil => intro _; rfl
  | cons t ts ih =>
    intro h
    have ht : t.acceptsSubscriber = true := h t (by simp)
    have hts := ih (fun u hu => h u (by simp [hu]))
    simp [AddSubscriber, ht, hts]

/-- Helper: at the first failing track, `AddSubscriber` returns its error,
leaves the earlier tracks subscribed, and attempts nothing later. -/
theorem addSubscriber_first_fail :
    ∀ (pre : List PubTrack) (t : PubTrack) (post : List PubTrack),
    (∀ u ∈ pre, u.acceptsSubscriber = true) → t.acceptsSubscriber = false →
    AddSubscriber (pre ++ t :: post) =
      (some t.tid, pre.map PubTrack.tid ++ [t.tid], pre.map PubTrack.tid) := by
  intro pre
  induction pre with
  | nil =>
    intro t post _ ht
    simp [AddSubscriber, ht]
  | cons u us ih =>
    intro t post h ht
    have hu : u.acceptsSubscriber = true := h u (by simp)
    have hrec := ih t post (fun v hv => h v (by simp [hv])) ht
    simp [AddSubscriber, hu, hrec]

/-- Helper: `AddSubscriber` returns nil iff every track accepted. -/
theorem addSubscriber_none_iff : ∀ ts : List PubTrack,
    (AddSubscriber ts).1 = none ↔ ∀ t ∈ ts, t.acceptsSubscriber = true := by
  intro ts
  induction ts with
  | nil => simp [AddSubscriber]
  | cons t ts ih =>
    cases ht : t.acceptsSubscriber <;> simp [AddSubscriber, ht, ih]

/-- Claim C7: `AddSubscriber` walks the published tracks asking each to
accept the target; it returns nil iff every track accepted, in which case
every track is attempted and subscribed; the first track-level failure is
returned as the error, tracks before it remain subscribed (no rollback),
and tracks after it are not attempted. -/
theorem addSubscriber_first_failure_aborts (ts : List PubTrack) :
    ((AddSubscriber ts).1 = none ↔ ∀ t ∈ ts, t.acceptsSubscriber = true) ∧
    ((AddSubscriber ts).1 = none →
      (AddSubscriber ts).2.2 = ts.map PubTrack.tid ∧
      (AddSubscriber ts).2.1 = ts.map PubTrack.tid) ∧
    (∀ pre t post, ts = pre ++ t :: post →
      (∀ u ∈ pre, u.acceptsSubscriber = true) → t.acceptsSubscriber = false →
      (AddSubscriber ts).1 = some t.tid ∧
      (AddSubscriber ts).2.2 = pre.map PubTrack.tid ∧
      (AddSubscriber ts).2.1 = pre.map PubTrack.tid ++ [t.tid]) := by
  refine ⟨addSubscriber_none_iff ts, ?_, ?_⟩
  · intro h
    have hall := addSubscriber_all_ok ts ((addSubscriber_none_iff ts).1 h)
    simp [hall]
  · intro pre t post hts hpre ht
    subst hts
    have hff := addSubscriber_first_fail pre t post hpre ht
    simp [hff]

/-- Witness for C7: three tracks, the second rejecting the subscriber. -/
theorem addSubscriber_first_failure_witness :
    (AddSubscriber [⟨1, true⟩, ⟨2, false⟩, ⟨3, true⟩]).1 = some 2 ∧
    (AddSubscriber [⟨1, true⟩, ⟨2, false⟩, ⟨3, true⟩]).2.2 = [1] ∧
    (AddSubscriber [⟨1, true⟩, ⟨2, false⟩, ⟨3, true⟩]).2.1 = [1, 2] := by
  have h := addSubscriber_first_failure_aborts [⟨1, true⟩, ⟨2, false⟩, ⟨3, true⟩]
  have h3 := h.2.2 [⟨1, true⟩] ⟨2, false⟩ [⟨3, true⟩] rfl (by decide) rfl
  exact ⟨h3.1, by simpa using h3.2.1, by simpa using h3.2.2⟩

/-! ### C10: `removeDownTrack` -/

/-- Claim C10: `removeDownTrack` removes every occurrence of exactly the
given handle from the stream's sequence (all other handles keep their
multiplicity), preserves the relative order of the remaining handles (the
result is a sublist of the original sequence), leaves every other stream's
sequence and the published-track registry unchanged, and is the identity
on the stream when the handle is not present. -/
theorem removeDownTrack_removes_handle_frame
    (p : ParticipantMaps) (sid : String) (dt : Nat) :
    (∀ h : Nat, ((removeDownTrack p sid dt).downTracks sid).count h =
        if h = dt then 0 else (p.downTracks sid).count h) ∧
    List.Sublist ((removeDownTrack p sid dt).downTracks sid) (p.downTracks sid) ∧
    (∀ s, s ≠ sid → (removeDownTrack p sid dt).downTracks s = p.downTracks s) ∧
    (removeDownTrack p sid dt).tracks = p.tracks ∧
    (dt ∉ p.downTracks sid →
      (removeDownTrack p sid dt).downTracks sid = p.downTracks sid) := by
  have hsid : (removeDownTrack p sid dt).downTracks sid =
      (p.downTracks sid).filter (fun track => track != dt) := by
    simp [removeDownTrack]
  refine ⟨?_, ?_, ?_, rfl, ?_⟩
  · intro h
    rw [hsid]
    by_cases hdt : h = dt
    · subst hdt
      rw [if_pos rfl, List.count_eq_zero]
      intro hmem
      rw [List.mem_filter] at hmem
      simp at hmem
    · rw [if_neg hdt, List.count_filter (by simpa using hdt)]
  · rw [hsid]
    exact List.filter_sublist _
  · intro s hs
    simp [removeDownTrack, hs]
  · intro hni
    rw [hsid, List.filter_eq_self]
    intro a ha
    have hne : a ≠ dt := fun e => hni (e ▸ ha)
    simpa using hne

/-- Witness for C10 on `sampleMaps`, removing handle `4` from stream
"a". -/
theorem removeDownTrack_removes_handle_witness :
    ((removeDownTrack sampleMaps "a" 4).downTracks "a").count 4 = 0 ∧
    ((removeDownTrack sampleMaps "a" 4).downTracks "a").count 5 = 1 ∧
    (removeDownTrack sampleMaps "a" 4).downTracks "b" = [9] ∧
    (removeDownTrack sampleMaps "a" 4).tracks = [(1, 2)] := by
  have h := removeDownTrack_removes_handle_frame sampleMaps "a" 4
  refine ⟨?_, ?_, ?_, h.2.2.2.1⟩
  · have h4 := h.1 4
    simpa using h4
  · have h5 := h.1 5
    rw [h5]
    decide
  · exact (h.2.2.1 "b" (by decide)).trans (by decide)

/-! ### C2: RTCP writes after Disconnected -/

/-- Helper: with the channel buffer holding `bs`, one relay step per
buffered batch drains the buffer, writing every batch at the session state
current during the drain. -/
theorem run_relay_drain : ∀ (bs : List Nat) (s : SysState), s.chanBuf = bs →
    run s (List.replicate bs.length Ev.relayStep) =
      some { s with chanBuf := [],
                    writes := s.writes ++ bs.map (fun b => (b, s.pstate)) } := by
  intro bs
  induction bs with
  | nil =>
    intro s hs
    obtain ⟨p1, cb, c1, b1, b2, p2, db, pe, w⟩ := s
    simp only at hs
    subst hs
    simp [run]
  | cons b bs ih =>
    intro s hs
    have h1 : step s Ev.relayStep =
        some { s with chanBuf := bs, writes := s.writes ++ [(b, s.pstate)] } := by
      simp [step, hs]
    have h2 := ih { s with chanBuf := bs, writes := s.writes ++ [(b, s.pstate)] } rfl
    simp only [List.length_cons, List.replicate_succ, run, h1]
    simp only at h2
    rw [h2]
    simp

/-- Helper: while the state is Disconnected, the down-track registry still
holds bound down tracks (`Close` clears none) and the periodic worker has
not observed a terminal write error, any number of further ticks each
performs one `WriteRTCP` call in state Disconnected and leaves the worker
running: the post-Disconnected writes of this worker are unbounded. -/
theorem run_periodic_ticks : ∀ (pkts : List Nat) (s : SysState),
    s.pstate = PState.disconnected → s.periodicExited = false →
    s.downTracksBound = true →
    run s (pkts.map (fun pkt => Ev.periodicTick pkt WriteRes.ok)) =
      some { s with
        writes := s.writes ++ pkts.map (fun pkt => (pkt, PState.disconnected)) } := by
  intro pkts
  induction pkts with
  | nil =>
    intro s hp hex hbd
    obtain ⟨p1, cb, c1, b1, b2, p2, db, pe, w⟩ := s
    simp [run]
  | cons pkt pkts ih =>
    intro s hp hex hbd
    have h1 : step s (Ev.periodicTick pkt WriteRes.ok) =
        some { s with writes := s.writes ++ [(pkt, PState.disconnected)],
                      periodicExited := false } := by
      simp [step, hex, hbd, hp]
    have h2 := ih { s with writes := s.writes ++ [(pkt, PState.disconnected)],
                           periodicExited := false } (by simp [hp]) rfl hbd
    simp only [List.map_cons, run, h1]
    simp only at h2
    rw [h2]
    simp [hex]

/-- Claim C2, counterexample. The claim says no RTCP write to the
transport happens once the state is Disconnected. But `Close` closes
`rtcpCh` and sets Disconnected while `rtcpSendWorker` is still draining:
a batch enqueued before `Close` is written to the peer connection after
the state became Disconnected (a Go receive from a closed channel still
yields the buffered values). -/
theorem rtcp_write_after_disconnected_cex :
    ¬ (∀ (evs : List Ev) (s' : SysState), run initSys evs = some s' →
        ∀ w ∈ s'.writes, w.2 ≠ PState.disconnected) := by
  intro h
  have hrun : run initSys [Ev.enqueue 5, Ev.close, Ev.relayStep] =
      some { pstate := PState.disconnected, chanBuf := [], chanClosed := true,
             burstRemaining := 0, burstPkt := 0, pcClosed := true,
             downTracksBound := false, periodicExited := false,
             writes := [(5, PState.disconnected)] } := rfl
  exact h _ _ hrun (5, PState.disconnected) (by simp) rfl

/-- Claim C2, amended: RTCP writes to the transport do occur after the
state becomes Disconnected, from each writer the claim names. After
`Close`, the relay worker drains and writes exactly the batches buffered
at close time, each write happening in state Disconnected, and no new
batch can be enqueued on the closed queue; an in-flight binding burst
keeps performing its remaining writes in state Disconnected; and the
periodic report worker — which checks no state and no cancellation, and
whose down-track registry `Close` does not clear — performs a further
write on every later tick while Disconnected, unboundedly (one write per
tick for arbitrarily many ticks), returning only when a write is answered
with the terminal transport error, never because of `Close`. -/
theorem rtcp_writes_after_disconnected_workers :
    (∀ bs : List Nat,
      run { initSys with chanBuf := bs }
          (Ev.close :: List.replicate bs.length Ev.relayStep) =
        some { initSys with pstate := PState.disconnected, chanClosed := true,
                            pcClosed := true, chanBuf := [],
                            writes := bs.map (fun b => (b, PState.disconnected)) }) ∧
    (∀ s : SysState, s.chanClosed = true → ∀ b, step s (Ev.enqueue b) = none) ∧
    (∀ s : SysState, s.pstate = PState.disconnected → s.burstRemaining ≠ 0 →
      step s Ev.burstStep =
        some { s with burstRemaining := s.burstRemaining - 1,
                      writes := s.writes ++ [(s.burstPkt, PState.disconnected)] }) ∧
    (∀ (pkts : List Nat) (s : SysState), s.pstate = PState.disconnected →
      s.periodicExited = false → s.downTracksBound = true →
      run s (pkts.map (fun pkt => Ev.periodicTick pkt WriteRes.ok)) =
        some { s with
          writes := s.writes ++ pkts.map (fun pkt => (pkt, PState.disconnected)) }) ∧
    (∀ (s : SysState) (pkt : Nat), s.periodicExited = false →
      s.downTracksBound = true →
      step s (Ev.periodicTick pkt WriteRes.errTerminal) =
        some { s with writes := s.writes ++ [(pkt, s.pstate)],
                      periodicExited := true }) := by
  refine ⟨?_, ?_, ?_, ?_, ?_⟩
  · intro bs
    have hclose : step { initSys with chanBuf := bs } Ev.close =
        some { initSys with chanBuf := bs, chanClosed := true, pcClosed := true,
                            pstate := PState.disconnected } := by
      simp [step, initSys, updateState]
    have hd := run_relay_drain bs
      { initSys with chanBuf := bs, chanClosed := true, pcClosed := true,
                     pstate := PState.disconnected } rfl
    simp only [run, hclose]
    simp only [initSys] at hd ⊢
    rw [hd]
    simp
  · intro s hc b
    simp [step, hc]
  · intro s hp hb
    simp [step, hb, hp]
  · exact fun pkts s hp hex hbd => run_periodic_ticks pkts s hp hex hbd
  · intro s pkt hex hbd
    simp [step, hex, hbd]

/-- Witness for the amended C2 theorem: one batch buffered at close time
is written after Disconnected; a burst with 3 remaining writes keeps
writing after Disconnected; two later periodic ticks each write after
Disconnected and leave the worker running; a tick answered with the
terminal error still writes, and only then the worker exits. -/
theorem rtcp_writes_after_disconnected_workers_witness :
    run { initSys with chanBuf := [5] } (Ev.close :: List.replicate 1 Ev.relayStep) =
      some { initSys with pstate := PState.disconnected, chanClosed := true,
                          pcClosed := true, chanBuf := [],
                          writes := [(5, PState.disconnected)] } ∧
    step ⟨PState.disconnected, [], true, 3, 9, true, false, false, []⟩ Ev.burstStep =
      some ⟨PState.disconnected, [], true, 2, 9, true, false, false,
            [(9, PState.disconnected)]⟩ ∧
    run ⟨PState.disconnected, [], true, 0, 0, true, true, false, []⟩
        ([3, 4].map (fun pkt => Ev.periodicTick pkt WriteRes.ok)) =
      some ⟨PState.disconnected, [], true, 0, 0, true, true, false,
            [(3, PState.disconnected), (4, PState.disconnected)]⟩ ∧
    step ⟨PState.disconnected, [], true, 0, 0, true, true, false, []⟩
        (Ev.periodicTick 6 WriteRes.errTerminal) =
      some ⟨PState.disconnected, [], true, 0, 0, true, true, true,
            [(6, PState.disconnected)]⟩ := by
  have h := rtcp_writes_after_disconnected_workers
  refine ⟨?_, ?_, ?_, ?_⟩
  · have h1 := h.1 [5]
    simpa using h1
  · have h3 := h.2.2.1 ⟨PState.disconnected, [], true, 3, 9, true, false, false, []⟩
      rfl (by decide)
    simpa using h3
  · have h4 := h.2.2.2.1 [3, 4]
      ⟨PState.disconnected, [], true, 0, 0, true, true, false, []⟩ rfl rfl rfl
    simpa using h4
  · have h5 := h.2.2.2.2 ⟨PState.disconnected, [], true, 0, 0, true, true, false, []⟩
      6 rfl rfl
    simpa using h5

/-! ### C4: the periodic report worker -/

/-- Helper: the inner snapshot loop of a tick, over one stream's down
tracks, appends one sender report per bound track and all their chunks. -/
theorem collectReports_inner (dts : List DownTrack) :
    ∀ acc : List RtcpPacket × List Nat,
    dts.foldl
        (fun acc dt =>
          if dt.isBound then
            (acc.1 ++ [RtcpPacket.senderReport dt.srId], acc.2 ++ dt.chunks)
          else acc)
        acc =
      (acc.1 ++ (dts.filter (fun dt => dt.isBound)).map
          (fun dt => RtcpPacket.senderReport dt.srId),
       acc.2 ++ ((dts.filter (fun dt => dt.isBound)).map DownTrack.chunks).flatten) := by
  induction dts with
  | nil => intro acc; simp
  | cons d ds ih =>
    intro acc
    cases hd : d.isBound
    · simp [List.foldl_cons, hd, ih]
    · simp [List.foldl_cons, hd, ih, List.append_assoc]

/-- Helper: filtering the bound tracks commutes with flattening the
per-stream lists. -/
theorem filter_isBound_flatten (L : List (List DownTrack)) :
    L.flatten.filter (fun dt => dt.isBound) =
      (L.map (fun l => l.filter (fun dt => dt.isBound))).flatten := by
  induction L with
  | nil => rfl
  | cons l ls ih => simp [List.filter_append, ih]

/-- Helper: `boundTracks` as the flattened per-stream bound tracks. -/
theorem boundTracks_eq (streams : List (String × List DownTrack)) :
    boundTracks streams =
      (streams.map (fun st => st.2.filter (fun dt => dt.isBound))).flatten := by
  unfold boundTracks
  rw [filter_isBound_flatten, List.map_map]
  rfl

/-- Helper: the full snapshot loop of a tick, over all streams. -/
theorem collectReports_outer :
    ∀ (streams : List (String × List DownTrack)) (acc : List RtcpPacket × List Nat),
    streams.foldl
        (fun acc st =>
          st.2.foldl
            (fun acc dt =>
              if dt.isBound then
                (acc.1 ++ [RtcpPacket.senderReport dt.srId], acc.2 ++ dt.chunks)
              else acc)
            acc)
        acc =
      (acc.1 ++ ((streams.map (fun st => st.2.filter (fun dt => dt.isBound))).flatten).map
          (fun dt => RtcpPacket.senderReport dt.srId),
       acc.2 ++ (((streams.map (fun st => st.2.filter (fun dt => dt.isBound))).flatten).map
          DownTrack.chunks).flatten) := by
  intro streams
  induction streams with
  | nil => intro acc; simp
  | cons s ss ih =>
    intro acc
    rw [List.foldl_cons, collectReports_inner s.2 acc, ih]
    simp [List.append_assoc]

/-- Helper: the snapshot of a tick is one sender report per bound down
track plus the concatenation of their chunk lists. -/
theorem collectReports_eq (streams : List (String × List DownTrack)) :
    collectReports streams = (tickSenderReports streams, tickChunks streams) := by
  unfold collectReports tickSenderReports tickChunks
  rw [collectReports_outer streams ([], []), boundTracks_eq]
  simp

/-- Helper: when every bound track contributes exactly one chunk, the
chunk list has one entry per bound track. -/
theorem tickChunks_length_of_single (l : List DownTrack)
    (h : ∀ dt ∈ l, dt.chunks.length = 1) :
    ((l.map DownTrack.chunks).flatten).length = l.length := by
  induction l with
  | nil => simp
  | cons d ds ih =>
    simp [h d (by simp), ih (fun u hu => h u (by simp [hu]))]
    omega

/-- Helper: one iteration of the batching loop when the write does not
fail terminally. -/
theorem sendBatches_cons (werr : Nat → WriteRes) (k : Nat) (pkts : List RtcpPacket)
    (c : Nat) (cs : List Nat) (hw : werr k ≠ WriteRes.errTerminal) :
    sendBatches werr k pkts (c :: cs) =
      (pkts ++ [RtcpPacket.sourceDescription
          ((c :: cs).take (min (c :: cs).length sdBatchSize))]) ::
        sendBatches werr (k + 1) [] ((c :: cs).drop (min (c :: cs).length sdBatchSize)) := by
  rw [sendBatches]
  cases hwk : werr k
  · rfl
  · exact absurd hwk hw
  · rfl

/-- Helper: one iteration of the batching loop when the write fails with a
terminal error: the write still happens, then the worker exits. -/
theorem sendBatches_cons_terminal (werr : Nat → WriteRes) (k : Nat)
    (pkts : List RtcpPacket) (c : Nat) (cs : List Nat)
    (hw : werr k = WriteRes.errTerminal) :
    sendBatches werr k pkts (c :: cs) =
      [pkts ++ [RtcpPacket.sourceDescription
          ((c :: cs).take (min (c :: cs).length sdBatchSize))]] := by
  rw [sendBatches, hw]

/-- Helper: without terminal write errors, the batching loop performs
exactly one write per started chunk group of at most `sdBatchSize`. -/
theorem sendBatches_length (werr : Nat → WriteRes)
    (hw : ∀ j, werr j ≠ WriteRes.errTerminal) :
    ∀ (n : Nat) (sd : List Nat) (pkts : List RtcpPacket) (k : Nat),
      sd.length ≤ n →
      (sendBatches werr k pkts sd).length = (sd.length + 19) / 20 := by
  intro n
  induction n with
  | zero =>
    intro sd pkts k hn
    have hsd : sd = [] := List.length_eq_zero.mp (by omega)
    subst hsd
    simp [sendBatches]
  | succ n ih =>
    intro sd pkts k hn
    cases sd with
    | nil => simp [sendBatches]
    | cons c cs =>
      have hn' : ((c :: cs).drop (min (c :: cs).length sdBatchSize)).length ≤ n := by
        simp only [List.length_drop, List.length_cons, sdBatchSize]
        simp only [List.length_cons] at hn
        omega
      rw [sendBatches_cons werr k pkts c cs (hw k), List.length_cons,
        ih _ [] (k + 1) hn']
      simp only [List.length_drop, List.length_cons, sdBatchSize]
      omega

/-- Helper: every batch the loop emits with an empty pending packet list
is a single source-description packet of at most `sdBatchSize` chunks. -/
theorem sendBatches_tail_sd_only (werr : Nat → WriteRes) :
    ∀ (n : Nat) (sd : List Nat) (k : Nat), sd.length ≤ n →
      ∀ batch ∈ sendBatches werr k [] sd,
        ∃ ch : List Nat, batch = [RtcpPacket.sourceDescription ch] ∧
          ch.length ≤ sdBatchSize := by
  intro n
  induction n with
  | zero =>
    intro sd k hn batch hb
    have hsd : sd = [] := List.length_eq_zero.mp (by omega)
    subst hsd
    simp [sendBatches] at hb
  | succ n ih =>
    intro sd k hn batch hb
    cases sd with
    | nil => simp [sendBatches] at hb
    | cons c cs =>
      have htake : (((c :: cs).take (min (c :: cs).length sdBatchSize)).length ≤ sdBatchSize) := by
        simp [List.length_take, sdBatchSize]
      cases hwk : werr k with
      | errTerminal =>
        rw [sendBatches_cons_terminal werr k [] c cs hwk] at hb
        simp only [List.nil_append, List.mem_singleton] at hb
        exact ⟨_, hb, htake⟩
      | ok =>
        rw [sendBatches_cons werr k [] c cs (by simp [hwk])] at hb
        simp only [List.nil_append, List.mem_cons] at hb
        rcases hb with rfl | hb
        · exact ⟨_, rfl, htake⟩
        · refine ih _ (k + 1) ?_ batch hb
          simp only [List.length_drop, List.length_cons, sdBatchSize]
          simp only [List.length_cons] at hn
          omega
      | errTransient =>
        rw [sendBatches_cons werr k [] c cs (by simp [hwk])] at hb
        simp only [List.nil_append, List.mem_cons] at hb
        rcases hb with rfl | hb
        · exact ⟨_, rfl, htake⟩
        · refine ih _ (k + 1) ?_ batch hb
          simp only [List.length_drop, List.length_cons, sdBatchSize]
          simp only [List.length_cons] at hn
          omega

/-- Helper: every source-description packet the loop ever writes carries
at most `sdBatchSize` chunks, given the pending packets already do. -/
theorem sendBatches_chunk_bound (werr : Nat → WriteRes) :
    ∀ (n : Nat) (sd : List Nat) (pkts : List RtcpPacket) (k : Nat), sd.length ≤ n →
      (∀ ch : List Nat, RtcpPacket.sourceDescription ch ∈ pkts → ch.length ≤ sdBatchSize) →
      ∀ batch ∈ sendBatches werr k pkts sd, ∀ ch : List Nat,
        RtcpPacket.sourceDescription ch ∈ batch → ch.length ≤ sdBatchSize := by
  intro n
  induction n with
  | zero =>
    intro sd pkts k hn hp batch hb
    have hsd : sd = [] := List.length_eq_zero.mp (by omega)
    subst hsd
    simp [sendBatches] at hb
  | succ n ih =>
    intro sd pkts k hn hp batch hb
    cases sd with
    | nil => simp [sendBatches] at hb
    | cons c cs =>
      have htake : (((c :: cs).take (min (c :: cs).length sdBatchSize)).length ≤ sdBatchSize) := by
        simp [List.length_take, sdBatchSize]
      have hcompound : ∀ ch : List Nat,
          RtcpPacket.sourceDescription ch ∈
            pkts ++ [RtcpPacket.sourceDescription
              ((c :: cs).take (min (c :: cs).length sdBatchSize))] →
          ch.length ≤ sdBatchSize := by
        intro ch hch
        rcases List.mem_append.mp hch with hch | hch
        · exact hp ch hch
        · rw [List.mem_singleton] at hch
          cases hch
          exact htake
      cases hwk : werr k with
      | errTerminal =>
        rw [sendBatches_cons_terminal werr k pkts c cs hwk] at hb
        rw [List.mem_singleton] at hb
        subst hb
        exact hcompound
      | ok =>
        rw [sendBatches_cons werr k pkts c cs (by simp [hwk])] at hb
        rcases List.mem_cons.mp hb with rfl | hb
        · exact hcompound
        · refine ih _ [] (k + 1) ?_ (by simp) batch hb
          simp only [List.length_drop, List.length_cons, sdBatchSize]
          simp only [List.length_cons] at hn
          omega
      | errTransient =>
        rw [sendBatches_cons werr k pkts c cs (by simp [hwk])] at hb
        rcases List.mem_cons.mp hb with rfl | hb
        · exact hcompound
        · refine ih _ [] (k + 1) ?_ (by simp) batch hb
          simp only [List.length_drop, List.length_cons, sdBatchSize]
          simp only [List.length_cons] at hn
          omega

/-- Claim C4: in one tick of the periodic report worker without terminal
write errors, and with each bound down track contributing one
source-description chunk (the arity the spec's `ceil(M/20)` count
presumes): 0 bound down tracks give zero transport writes; `M` bound down
tracks give exactly `ceil(M/20) = (M+19)/20` compound writes; every batch
carries at most `sdBatchSize = 20` source-description chunks; the first
batch is one sender report per bound down track followed by the first
chunk batch; every later batch is a single source-description packet. -/
theorem periodic_tick_batch_counts (streams : List (String × List DownTrack))
    (werr : Nat → WriteRes)
    (hterm : ∀ j, werr j ≠ WriteRes.errTerminal)
    (harity : singleChunkPerTrack streams) :
    ((boundTracks streams).length = 0 → workerTick werr streams = []) ∧
    (workerTick werr streams).length = ((boundTracks streams).length + 19) / 20 ∧
    (boundTracks streams ≠ [] →
      (workerTick werr streams).head? =
        some (tickSenderReports streams ++
          [RtcpPacket.sourceDescription
            ((tickChunks streams).take (min (tickChunks streams).length sdBatchSize))])) ∧
    (∀ batch ∈ (workerTick werr streams).tail,
      ∃ ch : List Nat, batch = [RtcpPacket.sourceDescription ch] ∧
        ch.length ≤ sdBatchSize) ∧
    (∀ batch ∈ workerTick werr streams, ∀ ch : List Nat,
      RtcpPacket.sourceDescription ch ∈ batch → ch.length ≤ sdBatchSize) := by
  have hwt : workerTick werr streams =
      sendBatches werr 0 (tickSenderReports streams) (tickChunks streams) := by
    simp only [workerTick, collectReports_eq]
  have hchlen : (tickChunks streams).length = (boundTracks streams).length := by
    simp only [tickChunks]
    exact tickChunks_length_of_single _ harity
  refine ⟨?_, ?_, ?_, ?_, ?_⟩
  · intro h0
    have hch : tickChunks streams = [] := List.length_eq_zero.mp (by omega)
    rw [hwt, hch]
    simp [sendBatches]
  · rw [hwt, sendBatches_length werr hterm (tickChunks streams).length _ _ _ le_rfl,
      hchlen]
  · intro hne
    have hpos : 0 < (tickChunks streams).length := by
      rw [hchlen]
      cases h : boundTracks streams
      · exact absurd h hne
      · simp
    obtain ⟨c, cs, hcc⟩ : ∃ c cs, tickChunks streams = c :: cs := by
      cases hc : tickChunks streams with
      | nil => rw [hc] at hpos; simp at hpos
      | cons c cs => exact ⟨c, cs, rfl⟩
    rw [hwt, hcc, sendBatches_cons werr 0 _ c cs (hterm 0)]
    simp
  · intro batch hb
    cases hc : tickChunks streams with
    | nil =>
      rw [hwt, hc] at hb
      simp [sendBatches] at hb
    | cons c cs =>
      rw [hwt, hc, sendBatches_cons werr 0 _ c cs (hterm 0)] at hb
      simp only [List.tail_cons] at hb
      refine sendBatches_tail_sd_only werr (cs.length + 1) _ 1 ?_ batch hb
      simp only [List.length_drop, List.length_cons, sdBatchSize]
      omega
  · intro batch hb ch hch
    refine sendBatches_chunk_bound werr (tickChunks streams).length
      (tickChunks streams) (tickSenderReports streams) 0 le_rfl
      ?_ batch ?_ ch hch
    · intro ch' hch'
      simp [tickSenderReports] at hch'
    · rw [hwt] at hb
      exact hb

/-- Witness for C4 on `streamsW` (3 bound down tracks, one chunk each,
across two streams): one compound write, matching `(3 + 19) / 20 = 1`. -/
theorem periodic_tick_batch_counts_witness :
    singleChunkPerTrack streamsW ∧
    (workerTick (fun _ => WriteRes.ok) streamsW).length = 1 := by
  have harity : singleChunkPerTrack streamsW := by
    intro dt hdt
    revert dt hdt
    decide
  have hterm : ∀ j : Nat, (fun _ : Nat => WriteRes.ok) j ≠ WriteRes.errTerminal :=
    fun j h => nomatch h
  have h := periodic_tick_batch_counts streamsW (fun _ => WriteRes.ok) hterm harity
  refine ⟨harity, ?_⟩
  rw [h.2.1]
  decide

end LiveKitRtc
